import Mathlib

/-!
Verification of the snapcast SDL2/WebOS audio player core
(src/client/player/webos_player.cpp, src/client/player/sdl2_player.cpp).

The shared ring buffer is modelled as a list of bytes (`Nat` values) plus a
fill counter; the hardware callback and the producer iteration are modelled as
pure state transformers, faithful to the branch structure of the C++ source.
-/

namespace Snapcast

/-- Capacity of the WebOS shared audio buffer in bytes
(`BUFFER_SIZE = 4096` in webos_player.hpp). -/
def BUFFER_SIZE : Nat := 4096

/-- State of the shared audio buffer of WebOSPlayer: the backing byte storage
(`audio_buffer_`, a fixed array of BUFFER_SIZE bytes) and the fill counter
(`buffer_fill_`). -/
structure BufState where
  buf : List Nat
  fill : Nat
  deriving Repr, DecidableEq

/-- WebOSPlayer::audioCallback (webos_player.cpp lines 155-195), modelled as a
pure function.  Inputs: whether `userdata` resolved to a non-null player,
the `audio_active_` flag, the buffer state, and the requested byte count
`len`.  Output: the destination bytes written into `stream` and the new
buffer state.  Mirrors the source: if the player is null or inactive the
whole destination is zeroed and the buffer untouched; otherwise
`bytes_to_copy = min(len, available)` bytes are copied from the buffer front,
the remaining `available - bytes_to_copy` bytes are moved to the front
(`memmove`), the fill counter becomes `available - bytes_to_copy`, and the
remaining `len - bytes_to_copy` destination bytes are zero-filled. -/
def webosAudioCallback (playerPresent audio_active : Bool) (s : BufState)
    (len : Nat) : List Nat × BufState :=
  if !playerPresent || !audio_active then
    (List.replicate len 0, s)
  else
    let available := s.fill
    let bytes_to_copy := min len available
    let dest := s.buf.take bytes_to_copy ++ List.replicate (len - bytes_to_copy) 0
    if 0 < bytes_to_copy then
      if bytes_to_copy < available then
        (dest, ⟨(s.buf.drop bytes_to_copy).take (available - bytes_to_copy) ++
                  s.buf.drop (available - bytes_to_copy),
                available - bytes_to_copy⟩)
      else
        (dest, ⟨s.buf, 0⟩)
    else
      (dest, s)

/-- Modelled from the spec: the ring-buffer write contract of spec section 4.1
(`write(data, n)` appends up to `capacity - fill` bytes at the fill offset,
silently truncating on overflow).  The repository has no standalone write
function; WebOSPlayer::processAudio inlines a write that is always sized to
the free space.  This definition realises the abstract contract and is used
for concrete scenario states. -/
def ringWrite (s : BufState) (data : List Nat) : BufState :=
  let n := min data.length (BUFFER_SIZE - s.fill)
  ⟨s.buf.take s.fill ++ data.take n ++ s.buf.drop (s.fill + n), s.fill + n⟩

/-- The all-zero buffer state a WebOSPlayer starts with (constructor zeroes
`buffer_fill_`; the backing storage is BUFFER_SIZE bytes). -/
def bufZero : BufState := ⟨List.replicate BUFFER_SIZE 0, 0⟩

/-- 1000 frames of 4 bytes each of a nonzero marker byte. -/
def chunk4000 : List Nat := List.replicate 4000 9

/-- Scenario state of spec section 8: 4000 bytes buffered at fill offset 0. -/
def scenarioS1 : BufState := ringWrite bufZero chunk4000

/-- Helper: the fill counter after a consuming callback. -/
theorem webosAudioCallback_fill (s : BufState) (len : Nat) :
    (webosAudioCallback true true s len).2.fill = s.fill - min len s.fill := by
  unfold webosAudioCallback
  simp only [Bool.not_true, Bool.or_self, Bool.false_eq_true, if_false]
  by_cases h0 : 0 < min len s.fill
  · by_cases hlt : min len s.fill < s.fill
    · simp [h0, hlt]
    · have hmin : min len s.fill = s.fill := by omega
      have hpos : 0 < s.fill := by omega
      simp [hmin, hpos, lt_irrefl]
  · have hmin : min len s.fill = 0 := by omega
    simp [h0, hmin]

/-- C1: with a non-null player and an active sink, WebOSPlayer::audioCallback
copies exactly `min(len, fill)` bytes from the front of the buffer into the
destination, zero-fills the remaining `len - min(len, fill)` destination
bytes (so no destination byte comes from beyond the previous fill mark),
sets the fill counter to `fill - min(len, fill)`, and shifts the remaining
buffered bytes to the front of the buffer. -/
theorem webosAudioCallback_copies_min (s : BufState) (len : Nat)
    (hfill : s.fill ≤ s.buf.length) :
    (webosAudioCallback true true s len).1 =
        s.buf.take (min len s.fill) ++ List.replicate (len - min len s.fill) 0 ∧
    (webosAudioCallback true true s len).1.length = len ∧
    (webosAudioCallback true true s len).2.fill = s.fill - min len s.fill ∧
    (webosAudioCallback true true s len).2.buf.take (s.fill - min len s.fill) =
        (s.buf.drop (min len s.fill)).take (s.fill - min len s.fill) := by
  have hlen : (s.buf.take (min len s.fill) ++
      List.replicate (len - min len s.fill) 0).length = len := by
    simp [List.length_take]
    omega
  have hdest : (webosAudioCallback true true s len).1 =
      s.buf.take (min len s.fill) ++ List.replicate (len - min len s.fill) 0 := by
    unfold webosAudioCallback
    simp only [Bool.not_true, Bool.or_self, Bool.false_eq_true, if_false]
    by_cases h0 : 0 < min len s.fill
    · by_cases hlt : min len s.fill < s.fill <;> simp [h0, hlt]
    · simp [h0]
  refine ⟨hdest, by rw [hdest]; exact hlen, webosAudioCallback_fill s len, ?_⟩
  unfold webosAudioCallback
  simp only [Bool.not_true, Bool.or_self, Bool.false_eq_true, if_false]
  by_cases h0 : 0 < min len s.fill
  · by_cases hlt : min len s.fill < s.fill
    · simp only [h0, hlt, if_true]
      have hrest : s.fill - min len s.fill ≤
          ((s.buf.drop (min len s.fill)).take (s.fill - min len s.fill)).length := by
        simp only [List.length_take, List.length_drop]
        omega
      rw [List.take_append_of_le_length hrest, List.take_take, min_self]
    · have hmin : min len s.fill = s.fill := by omega
      have hpos : 0 < s.fill := by omega
      simp [hmin, hpos, lt_irrefl]
  · have hmin : min len s.fill = 0 := by omega
    simp [h0, hmin]

/-- Helper: the fill counter after a ring write (spec section 4.1 contract). -/
theorem ringWrite_fill (s : BufState) (data : List Nat) :
    (ringWrite s data).fill = s.fill + min data.length (BUFFER_SIZE - s.fill) := rfl

/-- Helper: the backing storage after a ring write. -/
theorem ringWrite_buf (s : BufState) (data : List Nat) :
    (ringWrite s data).buf =
      s.buf.take s.fill ++ data.take (min data.length (BUFFER_SIZE - s.fill)) ++
        s.buf.drop (s.fill + min data.length (BUFFER_SIZE - s.fill)) := rfl

/-- Witness for C1, realising the scenario of spec section 8: after 4000
bytes (1000 four-byte frames) are buffered at fill 0, the fill is 4000; a
callback request of 2048 bytes copies 2048 real bytes from the buffer front,
appends no silence, and leaves fill = 1952. -/
theorem webosAudioCallback_copies_min_witness :
    scenarioS1.fill = 4000 ∧
    (webosAudioCallback true true scenarioS1 2048).1 = scenarioS1.buf.take 2048 ∧
    (webosAudioCallback true true scenarioS1 2048).1.length = 2048 ∧
    (webosAudioCallback true true scenarioS1 2048).2.fill = 1952 := by
  have hcl : chunk4000.length = 4000 := by
    show (List.replicate 4000 9).length = 4000
    rw [List.length_replicate]
  have hbz : bufZero.fill = 0 := rfl
  have hbzl : bufZero.buf.length = 4096 := by
    show (List.replicate BUFFER_SIZE 0).length = 4096
    rw [List.length_replicate]
    rfl
  have hs : scenarioS1.fill = 4000 := by
    have h := ringWrite_fill bufZero chunk4000
    rw [hbz, hcl] at h
    rw [show scenarioS1.fill = (ringWrite bufZero chunk4000).fill from rfl, h]
    simp only [BUFFER_SIZE]
    omega
  have hbl : scenarioS1.buf.length = 4096 := by
    have h := ringWrite_buf bufZero chunk4000
    have hl : scenarioS1.buf.length = _ := congrArg List.length h
    rw [hl]
    simp only [List.length_append, List.length_take, List.length_drop, hcl, hbz, hbzl,
      BUFFER_SIZE]
    omega
  have hfill : scenarioS1.fill ≤ scenarioS1.buf.length := by
    rw [hs, hbl]
    omega
  have h := webosAudioCallback_copies_min scenarioS1 2048 hfill
  have hm : min 2048 (4000 : Nat) = 2048 := by omega
  obtain ⟨h1, h2, h3, _⟩ := h
  refine ⟨hs, ?_, h2, ?_⟩
  · rw [h1, hs, hm]
    simp
  · rw [h3, hs]
    omega

/-- An upstream chunk request made by a producer or callback: how many frames
are requested, and the requested latency in microseconds
(`getPlayerChunkOrSilence(dst, latency, frames)`). -/
structure ChunkRequest where
  frames : Nat
  latencyUs : Nat
  deriving Repr, DecidableEq

/-- WebOSPlayer::processAudio (webos_player.cpp lines 210-259), modelled as a
pure function.  `audio_active` and `inited` are the `audio_active_` and
`initialized_` flags; `frame_size` is `stream_->getFormat().frameSize()`;
`getChunk n` is the byte list `getPlayerChunkOrSilence` writes when asked for
`n` frames (modelled from the spec, section 6: it always fully fills the
destination with real audio or silence); `adjust d n` is `adjustVolume` on
region `d` with frame count `n`, returning the scaled region or an error
(the in-place transform is external Player code, modelled from the spec,
section 4.3, as a fallible region transform).  The result is the new buffer
state paired with the upstream request that was issued, if any.  Mirrors the
source: return unchanged when inactive or uninitialised, when the buffer is
full, when the frame size is zero, or when the free space holds no whole
frame; otherwise write `frames = (BUFFER_SIZE - fill) / frame_size` frames at
offset `fill` with zero requested latency, unconditionally advance the fill
by `frames * frame_size`, and apply the volume transform to the freshly
written region, catching any failure (the region keeps the unscaled data). -/
def processAudio (audio_active inited : Bool) (frame_size : Nat)
    (getChunk : Nat → List Nat)
    (adjust : List Nat → Nat → Except String (List Nat))
    (s : BufState) : BufState × Option ChunkRequest :=
  if !audio_active || !inited then (s, none)
  else if BUFFER_SIZE ≤ s.fill then (s, none)
  else if frame_size = 0 then (s, none)
  else
    let space := BUFFER_SIZE - s.fill
    let frames := space / frame_size
    if frames = 0 then (s, none)
    else
      let data := getChunk frames
      let region :=
        match adjust data frames with
        | Except.ok d => d
        | Except.error _ => data
      (⟨s.buf.take s.fill ++ region ++ s.buf.drop (s.fill + frames * frame_size),
        s.fill + frames * frame_size⟩,
       some ⟨frames, 0⟩)

/-- A chunk supplier returning a constant byte in every position, sized to
`fs` bytes per frame (satisfies the upstream fill contract). -/
def constChunk (b fs : Nat) : Nat → List Nat :=
  fun n => List.replicate (n * fs) b

/-- A volume transform that succeeds and leaves the samples unchanged
(volume 1.0). -/
def okAdjust : List Nat → Nat → Except String (List Nat) :=
  fun d _ => Except.ok d

/-- A volume transform that always fails. -/
def failAdjust : List Nat → Nat → Except String (List Nat) :=
  fun _ _ => Except.error "adjustVolume failed"

/-- Helper: the fill counter and request after a producer iteration, by cases
on whether a whole frame fits in the free space. -/
theorem processAudio_fill_req (frame_size : Nat) (getChunk : Nat → List Nat)
    (adjust : List Nat → Nat → Except String (List Nat)) (s : BufState)
    (hfill : s.fill ≤ BUFFER_SIZE) :
    (frame_size = 0 ∨ (BUFFER_SIZE - s.fill) / frame_size = 0 →
      processAudio true true frame_size getChunk adjust s = (s, none)) ∧
    (frame_size ≠ 0 → (BUFFER_SIZE - s.fill) / frame_size ≠ 0 →
      (processAudio true true frame_size getChunk adjust s).2 =
          some ⟨(BUFFER_SIZE - s.fill) / frame_size, 0⟩ ∧
      (processAudio true true frame_size getChunk adjust s).1.fill =
          s.fill + ((BUFFER_SIZE - s.fill) / frame_size) * frame_size) := by
  constructor
  · intro h
    unfold processAudio
    simp only [Bool.not_true, Bool.or_self, Bool.false_eq_true, if_false]
    by_cases hbig : BUFFER_SIZE ≤ s.fill
    · simp [hbig]
    · rcases h with h | h
      · simp [hbig, h]
      · by_cases hz : frame_size = 0
        · simp [hbig, hz]
        · simp [hbig, hz, h]
  · intro hz hf
    unfold processAudio
    have hbig : ¬ BUFFER_SIZE ≤ s.fill := by
      intro hge
      have : BUFFER_SIZE - s.fill = 0 := by omega
      rw [this] at hf
      simp [Nat.zero_div] at hf
    simp [hbig, hz, hf]

/-- C3: with the sink active and initialised and a positive frame size, a
producer iteration computes the free space in whole frames as
`(BUFFER_SIZE - fill) / frame_size`; if that is zero it returns with the
buffer state unchanged and issues no upstream request; otherwise it requests
exactly that many frames at zero requested latency, writes the (volume
adjusted) returned bytes at offset `fill` leaving the first `fill` bytes
untouched, and unconditionally — for every possible returned chunk, real or
silence, and every outcome of the volume transform — advances the fill by
exactly `frames * frame_size`. -/
theorem processAudio_request_zero_latency (frame_size : Nat)
    (getChunk : Nat → List Nat)
    (adjust : List Nat → Nat → Except String (List Nat)) (s : BufState)
    (hfs : 0 < frame_size) (hfill : s.fill ≤ BUFFER_SIZE)
    (hbuf : s.buf.length = BUFFER_SIZE)
    (hg : ∀ n, (getChunk n).length = n * frame_size)
    (ha : ∀ d n r, adjust d n = Except.ok r → r.length = d.length) :
    ((BUFFER_SIZE - s.fill) / frame_size = 0 →
      processAudio true true frame_size getChunk adjust s = (s, none)) ∧
    ((BUFFER_SIZE - s.fill) / frame_size ≠ 0 →
      (processAudio true true frame_size getChunk adjust s).2 =
          some ⟨(BUFFER_SIZE - s.fill) / frame_size, 0⟩ ∧
      (processAudio true true frame_size getChunk adjust s).1.fill =
          s.fill + ((BUFFER_SIZE - s.fill) / frame_size) * frame_size ∧
      (processAudio true true frame_size getChunk adjust s).1.buf.take s.fill =
          s.buf.take s.fill ∧
      ((processAudio true true frame_size getChunk adjust s).1.buf.drop s.fill).take
          (((BUFFER_SIZE - s.fill) / frame_size) * frame_size) =
        (match adjust (getChunk ((BUFFER_SIZE - s.fill) / frame_size))
            ((BUFFER_SIZE - s.fill) / frame_size) with
         | Except.ok d => d
         | Except.error _ => getChunk ((BUFFER_SIZE - s.fill) / frame_size))) := by
  have hz : frame_size ≠ 0 := by omega
  refine ⟨fun h => (processAudio_fill_req frame_size getChunk adjust s hfill).1
    (Or.inr h), fun hf => ?_⟩
  have hmain := (processAudio_fill_req frame_size getChunk adjust s hfill).2 hz hf
  have hbig : ¬ BUFFER_SIZE ≤ s.fill := by
    intro hge
    have h0 : BUFFER_SIZE - s.fill = 0 := by omega
    rw [h0] at hf
    simp [Nat.zero_div] at hf
  have hbufeq : (processAudio true true frame_size getChunk adjust s).1.buf =
      s.buf.take s.fill ++
        (match adjust (getChunk ((BUFFER_SIZE - s.fill) / frame_size))
            ((BUFFER_SIZE - s.fill) / frame_size) with
         | Except.ok d => d
         | Except.error _ => getChunk ((BUFFER_SIZE - s.fill) / frame_size)) ++
        s.buf.drop (s.fill + ((BUFFER_SIZE - s.fill) / frame_size) * frame_size) := by
    unfold processAudio
    simp only [Bool.not_true, Bool.or_self, Bool.false_eq_true, if_false, hbig,
      hz, hf, if_true, ite_false, ite_true]
  have htf : (s.buf.take s.fill).length = s.fill := by
    simp only [List.length_take, hbuf]
    omega
  have hrl : (match adjust (getChunk ((BUFFER_SIZE - s.fill) / frame_size))
        ((BUFFER_SIZE - s.fill) / frame_size) with
      | Except.ok d => d
      | Except.error _ => getChunk ((BUFFER_SIZE - s.fill) / frame_size)).length =
      ((BUFFER_SIZE - s.fill) / frame_size) * frame_size := by
    rcases hok : adjust (getChunk ((BUFFER_SIZE - s.fill) / frame_size))
        ((BUFFER_SIZE - s.fill) / frame_size) with e | d
    · simp [hg]
    · rw [ha _ _ _ hok, hg]
  refine ⟨hmain.1, hmain.2, ?_, ?_⟩
  · rw [hbufeq, List.append_assoc,
      List.take_append_of_le_length (le_of_eq htf.symm), List.take_take, min_self]
  · rw [hbufeq, List.append_assoc,
      List.drop_append_of_le_length (le_of_eq htf.symm),
      List.drop_eq_nil_of_le (le_of_eq htf), List.nil_append,
      List.take_append_of_le_length (le_of_eq hrl.symm), ← hrl, List.take_length]

/-- Witness for C3: from the empty buffer with frame size 4, the producer
requests 1024 frames at zero latency and fills the buffer completely. -/
theorem processAudio_request_zero_latency_witness :
    (processAudio true true 4 (constChunk 9 4) okAdjust bufZero).2 =
        some ⟨1024, 0⟩ ∧
    (processAudio true true 4 (constChunk 9 4) okAdjust bufZero).1.fill = 4096 := by
  have hg : ∀ n, (constChunk 9 4 n).length = n * 4 := by
    intro n
    show (List.replicate (n * 4) 9).length = n * 4
    rw [List.length_replicate]
  have ha : ∀ d n r, okAdjust d n = Except.ok r → r.length = d.length := by
    intro d n r h
    cases h
    rfl
  have hbuf : bufZero.buf.length = BUFFER_SIZE := by
    show (List.replicate BUFFER_SIZE 0).length = BUFFER_SIZE
    rw [List.length_replicate]
  have h := (processAudio_request_zero_latency 4 (constChunk 9 4) okAdjust bufZero
    (by omega) (by decide) hbuf hg ha).2 (by decide)
  have hfr : (BUFFER_SIZE - bufZero.fill) / 4 = 1024 := by decide
  rw [hfr] at h
  have hfill0 : bufZero.fill = 0 := rfl
  refine ⟨h.1, ?_⟩
  rw [h.2.1, hfill0]

/-- Helper: in the writing branch (positive frame size, at least one whole
frame of free space), the backing storage after a producer iteration is the
untouched prefix, then the freshly written (possibly volume-adjusted) region,
then the untouched tail. -/
theorem processAudio_buf_eq (frame_size : Nat) (getChunk : Nat → List Nat)
    (adjust : List Nat → Nat → Except String (List Nat)) (s : BufState)
    (hz : frame_size ≠ 0) (hf : (BUFFER_SIZE - s.fill) / frame_size ≠ 0) :
    (processAudio true true frame_size getChunk adjust s).1.buf =
      s.buf.take s.fill ++
        (match adjust (getChunk ((BUFFER_SIZE - s.fill) / frame_size))
            ((BUFFER_SIZE - s.fill) / frame_size) with
         | Except.ok d => d
         | Except.error _ => getChunk ((BUFFER_SIZE - s.fill) / frame_size)) ++
        s.buf.drop (s.fill + ((BUFFER_SIZE - s.fill) / frame_size) * frame_size) := by
  have hbig : ¬ BUFFER_SIZE ≤ s.fill := by
    intro hge
    have h0 : BUFFER_SIZE - s.fill = 0 := by omega
    rw [h0] at hf
    simp [Nat.zero_div] at hf
  unfold processAudio
  simp only [Bool.not_true, Bool.or_self, Bool.false_eq_true, if_false, hbig,
    hz, hf, if_true, ite_false, ite_true]

/-- Helper: the freshly written region always spans exactly the requested
frame count in bytes, whether the volume transform succeeded or failed. -/
theorem processAudio_region_length (frame_size : Nat) (getChunk : Nat → List Nat)
    (adjust : List Nat → Nat → Except String (List Nat)) (n : Nat)
    (hg : ∀ m, (getChunk m).length = m * frame_size)
    (ha : ∀ d m r, adjust d m = Except.ok r → r.length = d.length) :
    (match adjust (getChunk n) n with
     | Except.ok d => d
     | Except.error _ => getChunk n).length = n * frame_size := by
  rcases hok : adjust (getChunk n) n with e | d
  · simp [hg]
  · rw [ha _ _ _ hok, hg]

/-- C4: a producer iteration never writes past the 4096-byte backing storage:
the write starts at offset `fill` (the first `fill` bytes are untouched), it
spans `((BUFFER_SIZE - fill) / frame_size) * frame_size` bytes, which is at
most the free space `BUFFER_SIZE - fill`, the storage length stays exactly
BUFFER_SIZE, and the new fill stays at most BUFFER_SIZE — for every fill in
[0, 4096] and every frame size, a request is always truncated to what fits. -/
theorem processAudio_no_overflow (frame_size : Nat) (getChunk : Nat → List Nat)
    (adjust : List Nat → Nat → Except String (List Nat)) (s : BufState)
    (hfill : s.fill ≤ BUFFER_SIZE) (hbuf : s.buf.length = BUFFER_SIZE)
    (hg : ∀ n, (getChunk n).length = n * frame_size)
    (ha : ∀ d n r, adjust d n = Except.ok r → r.length = d.length) :
    ((BUFFER_SIZE - s.fill) / frame_size) * frame_size ≤ BUFFER_SIZE - s.fill ∧
    (processAudio true true frame_size getChunk adjust s).1.buf.length =
        BUFFER_SIZE ∧
    (processAudio true true frame_size getChunk adjust s).1.buf.take s.fill =
        s.buf.take s.fill ∧
    (processAudio true true frame_size getChunk adjust s).1.fill ≤ BUFFER_SIZE := by
  have hspan : ((BUFFER_SIZE - s.fill) / frame_size) * frame_size ≤
      BUFFER_SIZE - s.fill := Nat.div_mul_le_self _ _
  have htf : (s.buf.take s.fill).length = s.fill := by
    simp only [List.length_take, hbuf]
    omega
  by_cases hz : frame_size = 0
  · have h := (processAudio_fill_req frame_size getChunk adjust s hfill).1
      (Or.inl hz)
    rw [h]
    exact ⟨hspan, hbuf, rfl, hfill⟩
  by_cases hf : (BUFFER_SIZE - s.fill) / frame_size = 0
  · have h := (processAudio_fill_req frame_size getChunk adjust s hfill).1
      (Or.inr hf)
    rw [h]
    exact ⟨hspan, hbuf, rfl, hfill⟩
  have hbufeq := processAudio_buf_eq frame_size getChunk adjust s hz hf
  have hrl := processAudio_region_length frame_size getChunk adjust
    ((BUFFER_SIZE - s.fill) / frame_size) hg ha
  have hfe := ((processAudio_fill_req frame_size getChunk adjust s hfill).2 hz hf).2
  refine ⟨hspan, ?_, ?_, ?_⟩
  · rw [hbufeq]
    simp only [List.length_append, List.length_take, List.length_drop, hrl, hbuf]
    omega
  · rw [hbufeq, List.append_assoc,
      List.take_append_of_le_length (le_of_eq htf.symm), List.take_take, min_self]
  · rw [hfe]
    omega

/-- Witness for C4: from the half-full buffer reached by writing 4000 bytes,
a producer iteration with frame size 4 keeps the storage at 4096 bytes and
the fill within capacity. -/
theorem processAudio_no_overflow_witness :
    ((BUFFER_SIZE - scenarioS1.fill) / 4) * 4 ≤ BUFFER_SIZE - scenarioS1.fill ∧
    (processAudio true true 4 (constChunk 9 4) okAdjust scenarioS1).1.buf.length =
        BUFFER_SIZE ∧
    (processAudio true true 4 (constChunk 9 4) okAdjust scenarioS1).1.fill ≤
        BUFFER_SIZE := by
  have hg : ∀ n, (constChunk 9 4 n).length = n * 4 := by
    intro n
    show (List.replicate (n * 4) 9).length = n * 4
    rw [List.length_replicate]
  have ha : ∀ d n r, okAdjust d n = Except.ok r → r.length = d.length := by
    intro d n r h
    cases h
    rfl
  have hcl : chunk4000.length = 4000 := by
    show (List.replicate 4000 9).length = 4000
    rw [List.length_replicate]
  have hbzl : bufZero.buf.length = 4096 := by
    show (List.replicate BUFFER_SIZE 0).length = 4096
    rw [List.length_replicate]
    rfl
  have hs : scenarioS1.fill = 4000 := by
    have h := ringWrite_fill bufZero chunk4000
    rw [show bufZero.fill = 0 from rfl, hcl] at h
    rw [show scenarioS1.fill = (ringWrite bufZero chunk4000).fill from rfl, h]
    simp only [BUFFER_SIZE]
    omega
  have hbl : scenarioS1.buf.length = BUFFER_SIZE := by
    have h := ringWrite_buf bufZero chunk4000
    have hl : scenarioS1.buf.length = _ := congrArg List.length h
    rw [hl]
    simp only [List.length_append, List.length_take, List.length_drop, hcl,
      show bufZero.fill = 0 from rfl, hbzl, BUFFER_SIZE]
    omega
  have h := processAudio_no_overflow 4 (constChunk 9 4) okAdjust scenarioS1
    (by rw [hs]; decide) hbl hg ha
  exact ⟨h.1, h.2.1, h.2.2.2⟩

/-- C10: with a degenerate stream format reporting frame size zero, the
producer iteration returns early for every activity state, every upstream
behaviour and every buffer state: the buffer state is unchanged and no
upstream request is issued, so the free-space division never runs with a
zero divisor and no zero-frame request reaches the stream. -/
theorem processAudio_zero_frame_size (audio_active inited : Bool)
    (getChunk : Nat → List Nat)
    (adjust : List Nat → Nat → Except String (List Nat)) (s : BufState) :
    processAudio audio_active inited 0 getChunk adjust s = (s, none) := by
  unfold processAudio
  split
  · rfl
  · split
    · rfl
    · simp

/-- One operation on the shared buffer: a producer iteration
(WebOSPlayer::processAudio with its frame size, upstream chunk supplier and
volume transform) or a consumer read of a given byte length
(WebOSPlayer::audioCallback). -/
inductive BufOp where
  | produce (frame_size : Nat) (getChunk : Nat → List Nat)
      (adjust : List Nat → Nat → Except String (List Nat)) : BufOp
  | consume (len : Nat) : BufOp

/-- Apply one operation to the shared buffer (both sides run with an active,
initialised sink and a resolved player pointer). -/
def applyOp (s : BufState) : BufOp → BufState
  | BufOp.produce fs g a => (processAudio true true fs g a s).1
  | BufOp.consume len => (webosAudioCallback true true s len).2

/-- Run an arbitrary interleaving of producer iterations and consumer reads. -/
def runOps (s : BufState) (ops : List BufOp) : BufState :=
  ops.foldl applyOp s

/-- Bytes written into the buffer by an operation from state `s`: the frame
count of the upstream request a producer iteration issues, converted to
bytes; a consumer read writes nothing into the buffer. -/
def opWritten (s : BufState) : BufOp → Nat
  | BufOp.produce fs g a =>
      match (processAudio true true fs g a s).2 with
      | some r => r.frames * fs
      | none => 0
  | BufOp.consume _ => 0

/-- Bytes consumed from the buffer by an operation from state `s`:
`min(len, fill)` for a consumer read, nothing for a producer iteration. -/
def opConsumed (s : BufState) : BufOp → Nat
  | BufOp.produce _ _ _ => 0
  | BufOp.consume len => min len s.fill

/-- Helper: the fill counter after any producer iteration equals the previous
fill plus the issued request in bytes. -/
theorem processAudio_fill_always (frame_size : Nat) (getChunk : Nat → List Nat)
    (adjust : List Nat → Nat → Except String (List Nat)) (s : BufState) :
    (processAudio true true frame_size getChunk adjust s).1.fill =
      s.fill + (match (processAudio true true frame_size getChunk adjust s).2 with
                | some r => r.frames * frame_size
                | none => 0) := by
  unfold processAudio
  simp only [Bool.not_true, Bool.or_self, Bool.false_eq_true, if_false]
  by_cases h1 : BUFFER_SIZE ≤ s.fill
  · simp [h1]
  by_cases h2 : frame_size = 0
  · simp [h1, h2]
  by_cases h3 : (BUFFER_SIZE - s.fill) / frame_size = 0
  · simp [h1, h2, h3]
  · simp [h1, h2, h3]

/-- Helper: single-step fill accounting. -/
theorem applyOp_fill (s : BufState) (op : BufOp) :
    (applyOp s op).fill = s.fill + opWritten s op - opConsumed s op := by
  cases op with
  | produce fs g a =>
      simp only [applyOp, opWritten, opConsumed, Nat.sub_zero]
      exact processAudio_fill_always fs g a s
  | consume len =>
      simp only [applyOp, opWritten, opConsumed]
      rw [webosAudioCallback_fill]
      omega

/-- Helper: a single step preserves the capacity bound. -/
theorem applyOp_fill_le (s : BufState) (op : BufOp)
    (h : s.fill ≤ BUFFER_SIZE) : (applyOp s op).fill ≤ BUFFER_SIZE := by
  cases op with
  | produce fs g a =>
      simp only [applyOp]
      by_cases hz : fs = 0
      · rw [(processAudio_fill_req fs g a s h).1 (Or.inl hz)]
        exact h
      by_cases hf : (BUFFER_SIZE - s.fill) / fs = 0
      · rw [(processAudio_fill_req fs g a s h).1 (Or.inr hf)]
        exact h
      · rw [((processAudio_fill_req fs g a s h).2 hz hf).2]
        have hle := Nat.div_mul_le_self (BUFFER_SIZE - s.fill) fs
        omega
  | consume len =>
      simp only [applyOp]
      rw [webosAudioCallback_fill]
      omega

/-- C2: the fill invariant `0 ≤ buffer_fill ≤ BUFFER_SIZE` holds initially
and is preserved by every interleaving of producer iterations and consumer
reads with arbitrary lengths, chunk suppliers and volume transforms; and
after each single operation the fill equals the previous fill plus the bytes
that operation wrote minus the bytes it consumed. -/
theorem buffer_fill_invariant (s : BufState) (hfill : s.fill ≤ BUFFER_SIZE) :
    (∀ ops : List BufOp, (runOps s ops).fill ≤ BUFFER_SIZE) ∧
    (∀ ops : List BufOp, ∀ op : BufOp,
      (applyOp (runOps s ops) op).fill =
        (runOps s ops).fill + opWritten (runOps s ops) op
          - opConsumed (runOps s ops) op) := by
  have hrun : ∀ ops : List BufOp, ∀ t : BufState,
      t.fill ≤ BUFFER_SIZE → (runOps t ops).fill ≤ BUFFER_SIZE := by
    intro ops
    induction ops with
    | nil => exact fun t ht => ht
    | cons op rest ih => exact fun t ht => ih (applyOp t op) (applyOp_fill_le t op ht)
  exact ⟨fun ops => hrun ops s hfill,
    fun ops op => applyOp_fill (runOps s ops) op⟩

/-- Witness for C2: a concrete interleaving (fill the buffer, drain 2048
bytes, top it up again) starting from the empty buffer stays within
capacity. -/
theorem buffer_fill_invariant_witness :
    bufZero.fill ≤ BUFFER_SIZE ∧
    (runOps bufZero [BufOp.produce 4 (constChunk 9 4) okAdjust,
        BufOp.consume 2048,
        BufOp.produce 4 (constChunk 9 4) okAdjust]).fill ≤ BUFFER_SIZE :=
  ⟨by decide, (buffer_fill_invariant bufZero (by decide)).1 _⟩

/-- An upstream request made by the direct-pull callback: frame count and
requested latency in milliseconds. -/
structure SdlChunkRequest where
  frames : Nat
  latencyMs : Nat
  deriving Repr, DecidableEq

/-- Sdl2Player::audioCallback (sdl2_player.cpp lines 170-186), modelled as a
pure function.  `frame_size` is `fmt.frameSize()`, `samples` is
`audio_spec_.samples` (the callback buffer size in frames), `rate` the sample
rate.  `getChunk latencyMs frames` models `getPlayerChunkOrSilence`: the
boolean says whether real data was available, the list is what was written
into the destination (always `frames` full frames, silence on failure —
spec section 6).  `adjust` models `adjustVolume` as in `processAudio`; the
source wraps it in no handler, so a failure is returned as `Except.error`
(the C++ exception propagating out of the callback).  Modelled from the
spec for the parts outside src: `fmt.msRate()` is the frames-per-millisecond
rate `rate / 1000` (spec section 3), so the computed latency
`samples / msRate + 30ms` is embedded as `samples * 1000 / rate + 30`
milliseconds, with the `size_t` cast as floor division.  The result pairs
the callback outcome (destination bytes, or a propagated error) with the
upstream request that was issued. -/
def sdl2AudioCallback (frame_size samples rate : Nat)
    (getChunk : Nat → Nat → Bool × List Nat)
    (adjust : List Nat → Nat → Except String (List Nat))
    (len : Nat) : Except String (List Nat) × SdlChunkRequest :=
  let frames := len / frame_size
  let latency := samples * 1000 / rate + 30
  let out := getChunk latency frames
  if out.1 then (adjust out.2 frames, ⟨frames, latency⟩)
  else (Except.ok out.2, ⟨frames, latency⟩)

/-- An upstream supplier that always has real data: a constant byte in every
position, `fs` bytes per frame. -/
def realChunk (b fs : Nat) : Nat → Nat → Bool × List Nat :=
  fun _ n => (true, List.replicate (n * fs) b)

/-- C5: the direct-pull callback requests exactly `len / frame_size` frames
at a latency of the callback buffer size in frames divided by the
frames-per-millisecond rate plus the fixed 30 ms margin; when the upstream
request reports failure the destination is exactly what the upstream
contract wrote (silence), unmodified; when it reports success the volume
transform is applied to exactly those `len / frame_size` frames. -/
theorem sdl2AudioCallback_spec (frame_size samples rate len : Nat)
    (getChunk : Nat → Nat → Bool × List Nat)
    (adjust : List Nat → Nat → Except String (List Nat))
    (_hfs : 0 < frame_size) (_hr : 0 < rate) :
    (sdl2AudioCallback frame_size samples rate getChunk adjust len).2 =
        ⟨len / frame_size, samples * 1000 / rate + 30⟩ ∧
    ((getChunk (samples * 1000 / rate + 30) (len / frame_size)).1 = false →
      (sdl2AudioCallback frame_size samples rate getChunk adjust len).1 =
        Except.ok (getChunk (samples * 1000 / rate + 30) (len / frame_size)).2) ∧
    ((getChunk (samples * 1000 / rate + 30) (len / frame_size)).1 = true →
      (sdl2AudioCallback frame_size samples rate getChunk adjust len).1 =
        adjust (getChunk (samples * 1000 / rate + 30) (len / frame_size)).2
          (len / frame_size)) := by
  unfold sdl2AudioCallback
  rcases hc : getChunk (samples * 1000 / rate + 30) (len / frame_size) with ⟨b, data⟩
  cases b <;> simp [hc]

/-- Witness for C5: 16-bit stereo at 48 kHz with a 1024-frame callback buffer
gives a latency of 1024/48 ms rounded down plus 30 ms = 51 ms; an 8-byte
callback asks for 2 frames, and with real data available the volume-adjusted
bytes are returned. -/
theorem sdl2AudioCallback_spec_witness :
    (sdl2AudioCallback 4 1024 48000 (realChunk 3 4) okAdjust 8).2 =
        ⟨2, 51⟩ ∧
    (sdl2AudioCallback 4 1024 48000 (realChunk 3 4) okAdjust 8).1 =
        Except.ok (List.replicate 8 3) := by
  have h := sdl2AudioCallback_spec 4 1024 48000 8 (realChunk 3 4) okAdjust
    (by omega) (by omega)
  refine ⟨h.1, ?_⟩
  have h3 := h.2.2 (by rfl)
  rw [h3]
  rfl

/-- Counterexample for C6: with a failing volume transform and real data
available, Sdl2Player::audioCallback does not return normally — the failure
escapes the callback (no handler in the source), so its outcome carries no
destination bytes. -/
theorem sdl2AudioCallback_adjust_failure_cex :
    (sdl2AudioCallback 4 1024 48000 (realChunk 3 4) failAdjust 8).1 =
        Except.error "adjustVolume failed" ∧
    (sdl2AudioCallback 4 1024 48000 (realChunk 3 4) failAdjust 8).1.toOption =
        none := by
  exact ⟨rfl, rfl⟩

/-- C6 (amended): a volume-transform failure is contained locally in
WebOSPlayer::processAudio — the try/catch makes it a no-op pass-through: the
iteration still issues its request, advances the fill as usual, stores the
unscaled chunk, and returns normally.  Sdl2Player::audioCallback has no
handler: whenever the upstream reports real data and the volume transform
fails, the failure propagates out of the callback. -/
theorem adjustVolume_failure_behavior
    (frame_size samples rate len : Nat) (getChunk : Nat → List Nat)
    (getChunk2 : Nat → Nat → Bool × List Nat)
    (adjust : List Nat → Nat → Except String (List Nat))
    (s : BufState) (e : String)
    (hz : frame_size ≠ 0) (hf : (BUFFER_SIZE - s.fill) / frame_size ≠ 0)
    (hfill : s.fill ≤ BUFFER_SIZE) (hbuf : s.buf.length = BUFFER_SIZE)
    (hg : ∀ n, (getChunk n).length = n * frame_size)
    (hfa : ∀ d n, adjust d n = Except.error e) :
    (processAudio true true frame_size getChunk adjust s).2 =
        some ⟨(BUFFER_SIZE - s.fill) / frame_size, 0⟩ ∧
    (processAudio true true frame_size getChunk adjust s).1.fill =
        s.fill + ((BUFFER_SIZE - s.fill) / frame_size) * frame_size ∧
    ((processAudio true true frame_size getChunk adjust s).1.buf.drop s.fill).take
        (((BUFFER_SIZE - s.fill) / frame_size) * frame_size) =
      getChunk ((BUFFER_SIZE - s.fill) / frame_size) ∧
    ((getChunk2 (samples * 1000 / rate + 30) (len / frame_size)).1 = true →
      (sdl2AudioCallback frame_size samples rate getChunk2 adjust len).1 =
        Except.error e) := by
  have hmain := (processAudio_fill_req frame_size getChunk adjust s hfill).2 hz hf
  have hbufeq := processAudio_buf_eq frame_size getChunk adjust s hz hf
  rw [hfa] at hbufeq
  have htf : (s.buf.take s.fill).length = s.fill := by
    simp only [List.length_take, hbuf]
    omega
  have hgl : (getChunk ((BUFFER_SIZE - s.fill) / frame_size)).length =
      ((BUFFER_SIZE - s.fill) / frame_size) * frame_size := hg _
  refine ⟨hmain.1, hmain.2, ?_, ?_⟩
  · rw [hbufeq, List.append_assoc,
      List.drop_append_of_le_length (le_of_eq htf.symm),
      List.drop_eq_nil_of_le (le_of_eq htf), List.nil_append,
      List.take_append_of_le_length (le_of_eq hgl.symm), ← hgl, List.take_length]
  · intro htrue
    unfold sdl2AudioCallback
    rcases hc : getChunk2 (samples * 1000 / rate + 30) (len / frame_size)
      with ⟨b, data⟩
    rw [hc] at htrue
    simp only at htrue
    simp [hc, htrue, hfa]

/-- Witness for C6 (amended): concrete inputs where the transform always
fails — the WebOS iteration completes with fill advanced and the raw chunk
stored, while the Sdl2 callback propagates the error. -/
theorem adjustVolume_failure_behavior_witness :
    (processAudio true true 4 (constChunk 9 4) failAdjust bufZero).2 =
        some ⟨1024, 0⟩ ∧
    (processAudio true true 4 (constChunk 9 4) failAdjust bufZero).1.fill = 4096 ∧
    (sdl2AudioCallback 4 1024 48000 (realChunk 3 4) failAdjust 8).1 =
        Except.error "adjustVolume failed" := by
  have hg : ∀ n, (constChunk 9 4 n).length = n * 4 := by
    intro n
    show (List.replicate (n * 4) 9).length = n * 4
    rw [List.length_replicate]
  have hbuf : bufZero.buf.length = BUFFER_SIZE := by
    show (List.replicate BUFFER_SIZE 0).length = BUFFER_SIZE
    rw [List.length_replicate]
  have hfa : ∀ d n, failAdjust d n = Except.error "adjustVolume failed" :=
    fun d n => rfl
  have h := adjustVolume_failure_behavior 4 1024 48000 8 (constChunk 9 4)
    (realChunk 3 4) failAdjust bufZero "adjustVolume failed"
    (by omega) (by decide) (by decide) hbuf hg hfa
  have hfr : (BUFFER_SIZE - bufZero.fill) / 4 = 1024 := by decide
  refine ⟨hfr ▸ h.1, ?_, h.2.2.2 (by rfl)⟩
  rw [h.2.1]
  decide

/-- Resource state touched by initializeAudio in both variants: whether the
SDL audio subsystem is initialised (`SDL_Init` without a matching
`SDL_Quit`), whether the audio device is open, and the `initialized_` flag. -/
structure InitState where
  subsystem : Bool
  deviceOpen : Bool
  inited : Bool
  deriving Repr, DecidableEq

/-- Outcome of initializeAudio: `true` return, `false` return, or a thrown
SnapException with its message. -/
inductive InitOutcome where
  | success : InitOutcome
  | failed : InitOutcome
  | thrown (msg : String) : InitOutcome
  deriving Repr, DecidableEq

/-- Sdl2Player::initializeAudio (sdl2_player.cpp lines 91-135), modelled on
the resource state.  Environment inputs: whether `SDL_Init(SDL_INIT_AUDIO)`
succeeds, the stream format's bits per sample, and whether
`SDL_OpenAudioDevice` succeeds.  Mirrors the source order: SDL_Init first
(failure returns false with nothing acquired); then the format check, which
throws for bits ≠ 16 — after the subsystem was initialised and without any
SDL_Quit on that path; then the device open, whose failure calls SDL_Quit
and returns false; success opens the device and sets `initialized_`. -/
def sdl2InitAudio (sdlInitOk : Bool) (bits : Nat) (openOk : Bool)
    (s : InitState) : InitState × InitOutcome :=
  if !sdlInitOk then (s, InitOutcome.failed)
  else
    let s1 : InitState := { s with subsystem := true }
    if bits ≠ 16 then
      (s1, InitOutcome.thrown ("Unsupported sample format: " ++ toString bits))
    else if !openOk then ({ s1 with subsystem := false }, InitOutcome.failed)
    else ({ s1 with deviceOpen := true, inited := true }, InitOutcome.success)

/-- WebOSPlayer::initializeAudio (webos_player.cpp lines 91-136): identical
resource shape but with no format check at all. -/
def webosInitAudio (sdlInitOk openOk : Bool) (s : InitState) :
    InitState × InitOutcome :=
  if !sdlInitOk then (s, InitOutcome.failed)
  else
    let s1 : InitState := { s with subsystem := true }
    if !openOk then ({ s1 with subsystem := false }, InitOutcome.failed)
    else ({ s1 with deviceOpen := true, inited := true }, InitOutcome.success)

/-- The clean state before start(): nothing acquired. -/
def initS0 : InitState := ⟨false, false, false⟩

/-- Counterexample for C7: with a 24-bit stream format, Sdl2Player's
initialization throws the unsupported-format error *after* the SDL audio
subsystem has been acquired, and on that path the subsystem is not released
— so the error is neither reported before any subsystem resource is
acquired nor preceded by a release of all partially acquired resources. -/
theorem sdl2InitAudio_unsupported_format_cex :
    (sdl2InitAudio true 24 true initS0).2 =
        InitOutcome.thrown "Unsupported sample format: 24" ∧
    (sdl2InitAudio true 24 true initS0).1.subsystem = true ∧
    ¬ ((sdl2InitAudio true 24 true initS0).2 = InitOutcome.success ∨
        (sdl2InitAudio true 24 true initS0).1.subsystem = false) := by
  refine ⟨rfl, rfl, ?_⟩
  intro h
  rcases h with h | h
  · exact absurd h (by decide)
  · exact absurd h (by decide)

/-- C7 (amended): an unsupported format (bits ≠ 16) makes Sdl2Player's
initialization throw before the audio *device* is opened but after the SDL
subsystem is initialised, and that path does not release the subsystem;
a subsystem-init failure returns the error with nothing acquired, and a
device-open failure releases the subsystem again and leaves the device
unopened and `initialized_` false — in both variants. -/
theorem initAudio_failure_states (bits : Nat) (openOk : Bool) :
    sdl2InitAudio false bits openOk initS0 = (initS0, InitOutcome.failed) ∧
    (bits ≠ 16 →
      sdl2InitAudio true bits openOk initS0 =
        (⟨true, false, false⟩,
         InitOutcome.thrown ("Unsupported sample format: " ++ toString bits))) ∧
    sdl2InitAudio true 16 false initS0 = (initS0, InitOutcome.failed) ∧
    webosInitAudio false openOk initS0 = (initS0, InitOutcome.failed) ∧
    webosInitAudio true false initS0 = (initS0, InitOutcome.failed) := by
  refine ⟨rfl, ?_, rfl, rfl, rfl⟩
  intro hb
  unfold sdl2InitAudio
  simp [hb, initS0]

/-- Witness for C7 (amended), at the concrete unsupported format 24. -/
theorem initAudio_failure_states_witness :
    (24 : Nat) ≠ 16 ∧
    sdl2InitAudio true 24 true initS0 =
      (⟨true, false, false⟩, InitOutcome.thrown "Unsupported sample format: 24") :=
  ⟨by decide, (initAudio_failure_states 24 true).2.1 (by decide)⟩

/-- Observable state of a WebOSPlayer for the stop() lifecycle: the
`audio_active_` flag, the base Player `active_` flag (Player::stop is
external Player code, modelled from the spec, section 5, as clearing the
cooperative cancellation flag), the device id, the device pause state, and
the shared buffer. -/
structure WebosState where
  audio_active : Bool
  base_active : Bool
  device : Nat
  paused : Bool
  bs : BufState
  deriving Repr, DecidableEq

/-- WebOSPlayer::stop (webos_player.cpp lines 75-89): clear `audio_active_`,
pause the device if one is open, then Player::stop.  The buffer state is
untouched and no resource is closed or released. -/
def webosStop (s : WebosState) : WebosState :=
  let s1 := { s with audio_active := false }
  let s2 := if s1.device ≠ 0 then { s1 with paused := true } else s1
  { s2 with base_active := false }

/-- Observable state of an Sdl2Player for the stop() lifecycle. -/
structure Sdl2State where
  base_active : Bool
  device : Nat
  paused : Bool
  deriving Repr, DecidableEq

/-- Sdl2Player::stop (sdl2_player.cpp lines 78-88): pause the device if one
is open, then Player::stop (modelled from the spec as for WebOSPlayer). -/
def sdl2Stop (s : Sdl2State) : Sdl2State :=
  let s1 := if s.device ≠ 0 then { s with paused := true } else s
  { s1 with base_active := false }

/-- C9: stop() is idempotent in both variants: a second stop() reproduces
exactly the observable end state of the first (activity flags, device id,
pause state, and for WebOS the buffer state), pausing the device to the same
state and releasing nothing twice — stop() releases no resource at all. -/
theorem stop_idempotent (w : WebosState) (s : Sdl2State) :
    webosStop (webosStop w) = webosStop w ∧ sdl2Stop (sdl2Stop s) = sdl2Stop s := by
  constructor
  · unfold webosStop
    by_cases h : w.device ≠ 0 <;> simp [h]
  · unfold sdl2Stop
    by_cases h : s.device ≠ 0 <;> simp [h]

/-- Counterexample for C8: the direct-pull Sdl2 callback has no activity
check: after Sdl2Player::stop has returned (base flag cleared, device
paused), an invocation of the callback still issues an upstream stream
request and, when real data is available, writes that data — not pure
silence — to the destination. -/
theorem sdl2_callback_after_stop_cex :
    (sdl2Stop ⟨true, 1, false⟩).base_active = false ∧
    (sdl2Stop ⟨true, 1, false⟩).paused = true ∧
    (sdl2AudioCallback 4 1024 48000 (realChunk 3 4) okAdjust 8).2 = ⟨2, 51⟩ ∧
    (sdl2AudioCallback 4 1024 48000 (realChunk 3 4) okAdjust 8).1 =
        Except.ok (List.replicate 8 3) ∧
    (List.replicate 8 3 : List Nat) ≠ List.replicate 8 0 :=
  ⟨rfl, rfl, rfl, rfl, by decide⟩

/-- C8 (amended): after WebOSPlayer::stop() returns, the sink is never again
observed active by the audio path: every subsequent hardware callback
invocation, for every destination length and buffer state, observes
`audio_active_ = false`, skips all buffer and stream interaction, writes
pure silence into its whole destination, and leaves the buffer state
unchanged.  Sdl2Player::stop() only pauses the device (when open) and clears
the base flag; its callback itself performs no activity check, so isolation
after stop relies on the paused device no longer invoking it. -/
theorem webos_callback_silent_after_stop (w : WebosState) (p : Bool)
    (bs : BufState) (len : Nat) (sdl : Sdl2State) :
    (webosStop w).audio_active = false ∧
    (webosStop w).base_active = false ∧
    (webosStop w).bs = w.bs ∧
    webosAudioCallback p (webosStop w).audio_active bs len =
        (List.replicate len 0, bs) ∧
    (sdl2Stop sdl).base_active = false ∧
    (sdl.device ≠ 0 → (sdl2Stop sdl).paused = true) := by
  have hact : (webosStop w).audio_active = false := by
    unfold webosStop
    by_cases h : w.device ≠ 0 <;> simp [h]
  have hcb : webosAudioCallback p false bs len = (List.replicate len 0, bs) := by
    unfold webosAudioCallback
    simp
  refine ⟨hact, ?_, ?_, by rw [hact]; exact hcb, ?_, ?_⟩
  · unfold webosStop
    by_cases h : w.device ≠ 0 <;> simp [h]
  · unfold webosStop
    by_cases h : w.device ≠ 0 <;> simp [h]
  · unfold sdl2Stop
    by_cases h : sdl.device ≠ 0 <;> simp [h]
  · intro h
    unfold sdl2Stop
    simp [h]

/-- Witness for C8 (amended), at a concrete stopped player with an open
device and a 4-byte callback. -/
theorem webos_callback_silent_after_stop_witness :
    (1 : Nat) ≠ 0 ∧
    webosAudioCallback true
        (webosStop ⟨true, true, 1, false, bufZero⟩).audio_active bufZero 4 =
      (List.replicate 4 0, bufZero) ∧
    (sdl2Stop ⟨true, 1, false⟩).paused = true := by
  have h := webos_callback_silent_after_stop ⟨true, true, 1, false, bufZero⟩
    true bufZero 4 ⟨true, 1, false⟩
  exact ⟨by decide, h.2.2.2.1, h.2.2.2.2.2 (by decide)⟩

end Snapcast
